import Mathlib

/-!
# sdp-visualizer: forward kinematics and pose classification

A shallow embedding of `src/main.cpp`.  The C `float` type is idealised as a linear ordered
field `α` (no rounding, no NaN); the libm functions the program reaches through raymath
(`sqrtf`, `sinf`, `cosf`, `acosf`) are passed in as a record `Libm α`, so that every definition
stays executable and the trigonometric statements can be read over `ℝ` with the real functions.

The raymath types and functions used by `main.cpp` (`Vector3`, `Quaternion`, `Matrix`,
`MatrixTranslate`, `MatrixRotate`, `MatrixMultiply`, `Vector3Transform`, `QuaternionSubtract`,
`QuaternionToAxisAngle`, `Vector3RotateByAxisAngle`) are transcribed from `raymath.h`.
-/

namespace SdpVisualizer

/-! ## raymath -/

/-- The libm functions called by raymath. -/
structure Libm (α : Type) where
  sqrtf : α → α
  sinf : α → α
  cosf : α → α
  acosf : α → α

/-- raymath `Vector3`. -/
structure Vector3 (α : Type) where
  x : α
  y : α
  z : α
deriving DecidableEq

/-- raymath `Quaternion` (a `Vector4`). -/
structure Quaternion (α : Type) where
  x : α
  y : α
  z : α
  w : α
deriving DecidableEq

/-- raymath `Matrix`: 4x4, stored column-major (`m12`, `m13`, `m14` hold the translation). -/
structure Matrix (α : Type) where
  m0 : α
  m4 : α
  m8 : α
  m12 : α
  m1 : α
  m5 : α
  m9 : α
  m13 : α
  m2 : α
  m6 : α
  m10 : α
  m14 : α
  m3 : α
  m7 : α
  m11 : α
  m15 : α
deriving DecidableEq

variable {α : Type} [LinearOrderedField α]

/-- raymath `EPSILON`, `0.000001f`. -/
def EPSILON : α := 1 / 1000000

/-- raymath `Vector3Zero`. -/
def Vector3Zero : Vector3 α := ⟨0, 0, 0⟩

/-- raymath `QuaternionSubtract`. -/
def QuaternionSubtract (q1 q2 : Quaternion α) : Quaternion α :=
  ⟨q1.x - q2.x, q1.y - q2.y, q1.z - q2.z, q1.w - q2.w⟩

/-- raymath `MatrixIdentity`. -/
def MatrixIdentity : Matrix α :=
  { m0 := 1, m4 := 0, m8 := 0, m12 := 0,
    m1 := 0, m5 := 1, m9 := 0, m13 := 0,
    m2 := 0, m6 := 0, m10 := 1, m14 := 0,
    m3 := 0, m7 := 0, m11 := 0, m15 := 1 }

/-- raymath `MatrixTranslate`. -/
def MatrixTranslate (x y z : α) : Matrix α :=
  { m0 := 1, m4 := 0, m8 := 0, m12 := x,
    m1 := 0, m5 := 1, m9 := 0, m13 := y,
    m2 := 0, m6 := 0, m10 := 1, m14 := z,
    m3 := 0, m7 := 0, m11 := 0, m15 := 1 }

/-- raymath `MatrixRotate`: the axis is normalised only when its squared length is neither
`1` nor `0`. -/
def MatrixRotate (lm : Libm α) (axis : Vector3 α) (angle : α) : Matrix α :=
  let x := axis.x
  let y := axis.y
  let z := axis.z
  let lengthSquared := x * x + y * y + z * z
  let n : Vector3 α :=
    if lengthSquared ≠ 1 ∧ lengthSquared ≠ 0 then
      let ilength := 1 / lm.sqrtf lengthSquared
      ⟨x * ilength, y * ilength, z * ilength⟩
    else ⟨x, y, z⟩
  let x := n.x
  let y := n.y
  let z := n.z
  let sinres := lm.sinf angle
  let cosres := lm.cosf angle
  let t := 1 - cosres
  { m0 := x * x * t + cosres
    m1 := y * x * t + z * sinres
    m2 := z * x * t - y * sinres
    m3 := 0
    m4 := x * y * t - z * sinres
    m5 := y * y * t + cosres
    m6 := z * y * t + x * sinres
    m7 := 0
    m8 := x * z * t + y * sinres
    m9 := y * z * t - x * sinres
    m10 := z * z * t + cosres
    m11 := 0
    m12 := 0
    m13 := 0
    m14 := 0
    m15 := 1 }

/-- raymath `MatrixMultiply`. -/
def MatrixMultiply (left right : Matrix α) : Matrix α :=
  { m0 := left.m0 * right.m0 + left.m1 * right.m4 + left.m2 * right.m8 + left.m3 * right.m12
    m1 := left.m0 * right.m1 + left.m1 * right.m5 + left.m2 * right.m9 + left.m3 * right.m13
    m2 := left.m0 * right.m2 + left.m1 * right.m6 + left.m2 * right.m10 + left.m3 * right.m14
    m3 := left.m0 * right.m3 + left.m1 * right.m7 + left.m2 * right.m11 + left.m3 * right.m15
    m4 := left.m4 * right.m0 + left.m5 * right.m4 + left.m6 * right.m8 + left.m7 * right.m12
    m5 := left.m4 * right.m1 + left.m5 * right.m5 + left.m6 * right.m9 + left.m7 * right.m13
    m6 := left.m4 * right.m2 + left.m5 * right.m6 + left.m6 * right.m10 + left.m7 * right.m14
    m7 := left.m4 * right.m3 + left.m5 * right.m7 + left.m6 * right.m11 + left.m7 * right.m15
    m8 := left.m8 * right.m0 + left.m9 * right.m4 + left.m10 * right.m8 + left.m11 * right.m12
    m9 := left.m8 * right.m1 + left.m9 * right.m5 + left.m10 * right.m9 + left.m11 * right.m13
    m10 := left.m8 * right.m2 + left.m9 * right.m6 + left.m10 * right.m10 + left.m11 * right.m14
    m11 := left.m8 * right.m3 + left.m9 * right.m7 + left.m10 * right.m11 + left.m11 * right.m15
    m12 := left.m12 * right.m0 + left.m13 * right.m4 + left.m14 * right.m8 + left.m15 * right.m12
    m13 := left.m12 * right.m1 + left.m13 * right.m5 + left.m14 * right.m9 + left.m15 * right.m13
    m14 := left.m12 * right.m2 + left.m13 * right.m6 + left.m14 * right.m10 + left.m15 * right.m14
    m15 := left.m12 * right.m3 + left.m13 * right.m7 + left.m14 * right.m11 + left.m15 * right.m15 }

/-- raymath `Vector3Transform`. -/
def Vector3Transform (v : Vector3 α) (mat : Matrix α) : Vector3 α :=
  { x := mat.m0 * v.x + mat.m4 * v.y + mat.m8 * v.z + mat.m12
    y := mat.m1 * v.x + mat.m5 * v.y + mat.m9 * v.z + mat.m13
    z := mat.m2 * v.x + mat.m6 * v.y + mat.m10 * v.z + mat.m14 }

/-- raymath `QuaternionToAxisAngle`, returning `(outAxis, outAngle)`: a quaternion with
`fabsf(q.w) > 1` is normalised first; the axis is the vector part over `den` when
`den > EPSILON` and `(1, 0, 0)` otherwise. -/
def QuaternionToAxisAngle (lm : Libm α) (q : Quaternion α) : Vector3 α × α :=
  let q : Quaternion α :=
    if |q.w| > 1 then
      let length := lm.sqrtf (q.x * q.x + q.y * q.y + q.z * q.z + q.w * q.w)
      let length : α := if length = 0 then 1 else length
      let ilength := 1 / length
      ⟨q.x * ilength, q.y * ilength, q.z * ilength, q.w * ilength⟩
    else q
  let resAngle := 2 * lm.acosf q.w
  let den := lm.sqrtf (1 - q.w * q.w)
  let resAxis : Vector3 α :=
    if den > EPSILON then ⟨q.x / den, q.y / den, q.z / den⟩ else ⟨1, 0, 0⟩
  (resAxis, resAngle)

/-- raymath `Vector3RotateByAxisAngle` (Euler-Rodrigues formula). -/
def Vector3RotateByAxisAngle (lm : Libm α) (v axis : Vector3 α) (angle : α) : Vector3 α :=
  let length := lm.sqrtf (axis.x * axis.x + axis.y * axis.y + axis.z * axis.z)
  let length : α := if length = 0 then 1 else length
  let ilength := 1 / length
  let ax := axis.x * ilength
  let ay := axis.y * ilength
  let az := axis.z * ilength
  let angle := angle / 2
  let a := lm.sinf angle
  let b := ax * a
  let c := ay * a
  let d := az * a
  let a := lm.cosf angle
  let w : Vector3 α := ⟨b, c, d⟩
  let wv : Vector3 α := ⟨w.y * v.z - w.z * v.y, w.z * v.x - w.x * v.z, w.x * v.y - w.y * v.x⟩
  let wwv : Vector3 α :=
    ⟨w.y * wv.z - w.z * wv.y, w.z * wv.x - w.x * wv.z, w.x * wv.y - w.y * wv.x⟩
  let a := a * 2
  let wv : Vector3 α := ⟨wv.x * a, wv.y * a, wv.z * a⟩
  let wwv : Vector3 α := ⟨wwv.x * 2, wwv.y * 2, wwv.z * 2⟩
  ⟨v.x + wv.x + wwv.x, v.y + wv.y + wwv.y, v.z + wv.z + wwv.z⟩

/-! ## Pose classifier (`main.cpp` lines 21-53) -/

/-- `struct HandPose`: `Quaternion finger[5]; Quaternion palm;`. -/
structure HandPose (α : Type) where
  finger : Fin 5 → Quaternion α
  palm : Quaternion α

/-- `QuaternionDiffLenSqr`. -/
def QuaternionDiffLenSqr (q0 q1 : Quaternion α) : α :=
  let d := QuaternionSubtract q0 q1
  d.w * d.w + d.x * d.x + d.y * d.y + d.z * d.z

/-- `HandPoseDist`: the loop `for (i = 0; i < 5; i++) sum += ...` starting from `sum = 0`;
the palm term is commented out in the source. -/
def HandPoseDist (p0 p1 : HandPose α) : α :=
  (List.finRange 5).foldl
    (fun sum i => sum + QuaternionDiffLenSqr (p0.finger i) (p1.finger i)) 0

/-- One iteration of the loop of `PosePrediction` on the state `(minDist, minIdx)`;
`minDist = none` is the initial `INFINITY`, which every distance is below. -/
def PosePredictionStep (dict : Fin 26 → HandPose α) (p : HandPose α)
    (st : Option α × Nat) (i : Fin 26) : Option α × Nat :=
  let dist := HandPoseDist p (dict i)
  match st.1 with
  | none => (some dist, i.val)
  | some minDist => if dist < minDist then (some dist, i.val) else st

/-- `PosePrediction` over the global `dict[26]`, here an explicit argument: returns
`'A' + (char) minIdx`. -/
def PosePrediction (dict : Fin 26 → HandPose α) (p : HandPose α) : Char :=
  let st := (List.finRange 26).foldl (PosePredictionStep dict p) (none, 0)
  Char.ofNat ('A'.toNat + st.2)

/-! ## Joint tree (`main.cpp` lines 10-19, 55-105) -/

section Tree

variable {β : Type}

/-- `struct Joint`.  The C array `child` of length `numchild` is the list `child`. -/
structure Joint (β : Type) where
  globalpos : Vector3 β
  localpos : Vector3 β
  axis : Vector3 β
  angle : β
  transform : Matrix β
  child : List (Joint β)

/-- The field `numchild`, the size of the array `child`. -/
def Joint.numchild (j : Joint β) : Nat := j.child.length

/-- The joint reached from `j` by following the child indices of a path, as in
`root.child[i].child[0]`; `none` when an index is outside the child array. -/
def nodeAt : List Nat → Joint β → Option (Joint β)
  | [], j => some j
  | i :: is, j =>
    match j.child[i]? with
    | none => none
    | some c => nodeAt is c

/-- An assignment through a path of child indices, as in `root.child[i].child[0].angle = v`:
the joint at the path is replaced by `f` of it. -/
def modifyAt : List Nat → (Joint β → Joint β) → Joint β → Joint β
  | [], f, j => f j
  | i :: is, f, j => { j with child := List.modify (modifyAt is f) i j.child }

end Tree

/-- `LoadJoint`.  The local `Joint joint;` is not initialised and the function never assigns
`joint.transform`, so the returned `transform` is whatever the storage held: the extra
argument `uninit`. -/
def LoadJoint (uninit : Matrix α) (offset axis : Vector3 α) : Joint α :=
  { localpos := offset
    axis := axis
    globalpos := Vector3Zero
    angle := 0
    transform := uninit
    child := [] }

/-- `AttachChildJoints`: `base->numchild = numchild`, a fresh child array, and
`base->child[i] = LoadJoint(Vector3Zero(), Vector3Zero())` for `i < numchild`;
`uninit i` is the uninitialised `transform` of the `i`-th `LoadJoint` call. -/
def AttachChildJoints (uninit : Nat → Matrix α) (base : Joint α) (numchild : Nat) : Joint α :=
  { base with
    child := (List.range numchild).map fun i => LoadJoint (uninit i) Vector3Zero Vector3Zero }

mutual
/-- `UpdateSkeleton` for a non-null `base`, returning the updated subtree. -/
def UpdateSkeleton (lm : Libm α) : Joint α → Matrix α → Joint α
  | ⟨_, localpos, axis, angle, _, child⟩, matglobal =>
    let mattranslate := MatrixTranslate localpos.x localpos.y localpos.z
    let matrotate := MatrixRotate lm axis angle
    let matlocal := MatrixMultiply mattranslate matrotate
    let matglobal := MatrixMultiply matlocal matglobal
    { globalpos := Vector3Transform Vector3Zero matglobal
      localpos := localpos
      axis := axis
      angle := angle
      transform := matglobal
      child := UpdateSkeletonChildren lm child matglobal }
/-- The loop `for (i = 0; i < base->numchild; i++) UpdateSkeleton(&base->child[i], matglobal)`. -/
def UpdateSkeletonChildren (lm : Libm α) : List (Joint α) → Matrix α → List (Joint α)
  | [], _ => []
  | c :: cs, matglobal => UpdateSkeleton lm c matglobal :: UpdateSkeletonChildren lm cs matglobal
end

/-! ## Skeleton construction in `main` (lines 193-276) -/

/-- `metacarpalAxis`, `{ 0, 0, 1 }`, never reassigned. -/
def metacarpalAxis : Vector3 α := ⟨0, 0, 1⟩

/-- `float length[5] = { 0.15, 0.18, 0.20, 0.18, 0.12 }`. -/
def length (i : Fin 5) : α :=
  match i with
  | 0 => 15 / 100
  | 1 => 18 / 100
  | 2 => 20 / 100
  | 3 => 18 / 100
  | 4 => 12 / 100

/-- The body of the loop at lines 251-274 for finger `i`. -/
def attachFinger (uninit : Nat → Matrix α) (root : Joint α) (i : Fin 5) : Joint α :=
  let metacarpalLocalPos : Vector3 α := ⟨length i, 0, 0⟩
  let set : Joint α → Joint α := fun j =>
    { j with localpos := metacarpalLocalPos, axis := metacarpalAxis, angle := 0 }
  let root := modifyAt [i.val] (fun j => AttachChildJoints uninit j 1) root
  let root := modifyAt [i.val, 0] set root
  let root := modifyAt [i.val, 0] (fun j => AttachChildJoints uninit j 1) root
  let root := modifyAt [i.val, 0, 0] set root
  let root := modifyAt [i.val, 0, 0] (fun j => AttachChildJoints uninit j 1) root
  let root := modifyAt [i.val, 0, 0, 0] set root
  let root := modifyAt [i.val, 0, 0, 0] (fun j => AttachChildJoints uninit j 1) root
  modifyAt [i.val, 0, 0, 0, 0] set root

/-- The hand skeleton built by `main` before the frame loop (lines 193-276). -/
def handSkeleton (uninit : Nat → Matrix α) : Joint α :=
  let root := LoadJoint (uninit 0) Vector3Zero ⟨0, 1, 0⟩
  let root := AttachChildJoints uninit root 5
  let root := modifyAt [0]
    (fun j : Joint α =>
      { j with localpos := ⟨1 / 10, 0, -(2 / 10)⟩, axis := ⟨0, 1, 0⟩, angle := 0 }) root
  let root := modifyAt [1]
    (fun j : Joint α =>
      { j with localpos := ⟨1 / 10, 0, -(1 / 10)⟩, axis := ⟨0, 1, 0⟩, angle := 0 }) root
  let root := modifyAt [2]
    (fun j : Joint α =>
      { j with localpos := ⟨1 / 10, 0, 0⟩, axis := ⟨0, 1, 0⟩, angle := 0 }) root
  let root := modifyAt [3]
    (fun j : Joint α =>
      { j with localpos := ⟨1 / 10, 0, 1 / 10⟩, axis := ⟨0, 1, 0⟩, angle := 0 }) root
  let root := modifyAt [4]
    (fun j : Joint α =>
      { j with localpos := ⟨1 / 10, 0, 1 / 10⟩, axis := ⟨0, 1, 0⟩, angle := -(1 / 2) }) root
  let root := (List.finRange 5).foldl (attachFinger uninit) root
  modifyAt [4, 0, 0, 0, 0] (fun j : Joint α => { j with localpos := Vector3Zero }) root

/-! ## Per-frame sensor read and joint mapping (`main.cpp` lines 310-346) -/

/-- The variables the frame loop keeps from one tick to the next: the skeleton, the `static`
locals `bend`, `palm_rot`, `palmAxis`, `palmAngle`, and the arrays `axis`, `angle`. -/
structure FrameState (α : Type) where
  root : Joint α
  bend : Fin 5 → Quaternion α
  palm_rot : Quaternion α
  palmAxis : Vector3 α
  palmAngle : α
  axis : Fin 5 → Vector3 α
  angle : Fin 5 → α

/-- A store through one of the pointers `&q.w`, `&q.x`, `&q.y`, `&q.z` (in that order). -/
def storeComponent (q : Quaternion α) (c : Nat) (v : α) : Quaternion α :=
  match c with
  | 0 => { q with w := v }
  | 1 => { q with x := v }
  | 2 => { q with y := v }
  | _ => { q with z := v }

/-- A store through the `k`-th pointer argument of the `sscanf` call at line 316:
`&bend[4].w, ..., &bend[4].z, &bend[3].w, ..., &bend[0].z, &palm_rot.w, ..., &palm_rot.z`. -/
def sscanfStore (s : FrameState α) (k : Nat) (v : α) : FrameState α :=
  if h : k / 4 < 5 then
    let i : Fin 5 := ⟨4 - k / 4, by omega⟩
    { s with bend := Function.update s.bend i (storeComponent (s.bend i) (k % 4) v) }
  else if k / 4 = 5 then
    { s with palm_rot := storeComponent s.palm_rot (k % 4) v }
  else s

/-- The `sscanf` call at line 316 on a line whose successfully converted fields are, in
order, `fields`: the `k`-th converted value is stored through the `k`-th pointer as soon as
it is converted, and the count of conversions is returned as `n`. -/
def sscanfLine (s : FrameState α) (fields : List α) : FrameState α × Nat :=
  let fs := fields.take 24
  (fs.enum.foldl (fun s kv => sscanfStore s kv.1 kv.2) s, fs.length)

/-- Lines 315-325.  `line = none`: `readString` returned no line.  `line = some fields`: a
line was read; the result `n` of `sscanf` is not consulted before the loop over the five
fingers recomputes `axis[i]` and `angle[i]`. -/
def readSensor (lm : Libm α) (s : FrameState α) (line : Option (List α)) : FrameState α :=
  match line with
  | none => s
  | some fields =>
    let s := (sscanfLine s fields).1
    (List.finRange 5).foldl
      (fun s i =>
        let r := QuaternionToAxisAngle lm (s.bend i)
        { s with
          axis := Function.update s.axis i r.1
          angle := Function.update s.angle i (r.2 / 8) })
      s

/-- Lines 327-331: the palm rotation drives the root joint. -/
def mapPalm (lm : Libm α) (s : FrameState α) : FrameState α :=
  let r := QuaternionToAxisAngle lm s.palm_rot
  let s := { s with palmAxis := r.1, palmAngle := r.2 }
  { s with
    root :=
      { s.root with
        axis := ⟨-s.palmAxis.x, -s.palmAxis.z, -s.palmAxis.y⟩
        angle := s.palmAngle } }

/-- The body of the loop at lines 336-346 for finger `i`. -/
def mapFinger (lm : Libm α) (s : FrameState α) (i : Fin 5) : FrameState α :=
  let tmpAxis : Vector3 α := ⟨-(s.axis i).x, -(s.axis i).z, -(s.axis i).y⟩
  let root := modifyAt [i.val, 0]
    (fun j => { j with axis := Vector3RotateByAxisAngle lm metacarpalAxis tmpAxis (s.angle i * 8) })
    s.root
  let root := modifyAt [i.val, 0, 0] (fun j => { j with angle := 2 * s.angle i }) root
  let root := modifyAt [i.val, 0, 0, 0] (fun j => { j with angle := 3 * s.angle i }) root
  let root := modifyAt [i.val, 0, 0, 0, 0] (fun j => { j with angle := 4 * s.angle i }) root
  { s with root := root }

/-- Lines 336-346. -/
def mapFingers (lm : Libm α) (s : FrameState α) : FrameState α :=
  (List.finRange 5).foldl (mapFinger lm) s

/-- The read-and-map step of one frame, lines 310-346. -/
def readAndMap (lm : Libm α) (s : FrameState α) (line : Option (List α)) : FrameState α :=
  mapFingers lm (mapPalm lm (readSensor lm s line))

/-! ## Concrete inputs and derived predicates -/

/-- A dictionary over `ℚ` whose entry `j` has every finger at `(0, 0, 0, j)`. -/
def ladderDict : Fin 26 → HandPose ℚ :=
  fun j => ⟨fun _ => ⟨0, 0, 0, (j.val : ℚ)⟩, ⟨0, 0, 0, 0⟩⟩

/-- The effect of the mapping loop on the chain of finger `k`, from the skeleton `old` to the
skeleton `new`, for the values `axis[k]` and `angle[k]`: the first joint keeps its angle and
gets a rotated `metacarpalAxis`; the next three get twice, three times and four times
`angle[k]`. -/
def FingerMapped (lm : Libm α) (old new : Joint α) (k : Fin 5) (axisk : Vector3 α)
    (anglek : α) : Prop :=
  (nodeAt [k.val, 0] new).map Joint.angle = (nodeAt [k.val, 0] old).map Joint.angle ∧
  (nodeAt [k.val, 0] new).map Joint.axis
      = some (Vector3RotateByAxisAngle lm metacarpalAxis
          ⟨-axisk.x, -axisk.z, -axisk.y⟩ (anglek * 8)) ∧
  (nodeAt [k.val, 0, 0] new).map Joint.angle = some (2 * anglek) ∧
  (nodeAt [k.val, 0, 0, 0] new).map Joint.angle = some (3 * anglek) ∧
  (nodeAt [k.val, 0, 0, 0, 0] new).map Joint.angle = some (4 * anglek)

/-- The frame state on entry to the loop: the skeleton built by `main`, and the zeroed
`static` locals and arrays of lines 302-304 and 310-313. -/
def initialState (uninit : Nat → Matrix α) : FrameState α :=
  { root := handSkeleton uninit
    bend := fun _ => ⟨0, 0, 0, 0⟩
    palm_rot := ⟨0, 0, 0, 0⟩
    palmAxis := ⟨0, 0, 0⟩
    palmAngle := 0
    axis := fun _ => ⟨0, 0, 0⟩
    angle := fun _ => 0 }

/-- The fields of the line `<0,1,0,0>,<0,1,0,0>,<0,1,0,0>,<0,1,0,0>,<0,1,0,0>,<1,0,0,0>`:
every finger bent by a half turn about `x`, the palm at the identity. -/
def halfTurnLine : List α :=
  [0, 1, 0, 0, 0, 1, 0, 0, 0, 1, 0, 0, 0, 1, 0, 0, 0, 1, 0, 0, 1, 0, 0, 0]

/-- The fields of the line `<1,0,0,0>,<1,0,0,0>,<1,0,0,0>,<1,0,0,0>,<1,0,0,0>,<1,0,0,0>`:
six identity quaternions. -/
def identityLine : List α :=
  [1, 0, 0, 0, 1, 0, 0, 0, 1, 0, 0, 0, 1, 0, 0, 0, 1, 0, 0, 0, 1, 0, 0, 0]

/-! ## Pose classifier: proofs -/

theorem HandPoseDist_unfold (p0 p1 : HandPose α) :
    HandPoseDist p0 p1 =
      QuaternionDiffLenSqr (p0.finger 0) (p1.finger 0)
        + QuaternionDiffLenSqr (p0.finger 1) (p1.finger 1)
        + QuaternionDiffLenSqr (p0.finger 2) (p1.finger 2)
        + QuaternionDiffLenSqr (p0.finger 3) (p1.finger 3)
        + QuaternionDiffLenSqr (p0.finger 4) (p1.finger 4) := by
  have h : List.finRange 5 = [0, 1, 2, 3, 4] := rfl
  simp [HandPoseDist, h]

theorem HandPoseDist_congr {p0 p0' p1 p1' : HandPose α}
    (h0 : ∀ i, p0.finger i = p0'.finger i) (h1 : ∀ i, p1.finger i = p1'.finger i) :
    HandPoseDist p0 p1 = HandPoseDist p0' p1' := by
  simp only [HandPoseDist_unfold, h0, h1]

theorem PosePrediction_congr {dict dict' : Fin 26 → HandPose α} {p p' : HandPose α}
    (h : ∀ i, HandPoseDist p (dict i) = HandPoseDist p' (dict' i)) :
    PosePrediction dict p = PosePrediction dict' p' := by
  have hstep : PosePredictionStep dict p = PosePredictionStep dict' p' := by
    funext st i
    simp only [PosePredictionStep, h]
  simp only [PosePrediction, hstep]

/-- C2: two poses with equal finger quaternions have the same `HandPoseDist` to every entry
and the same `PosePrediction`, whatever their palm quaternions; dictionaries with equal finger
quaternions give the same prediction, whatever their palm quaternions. -/
theorem PosePrediction_ignores_palm (dict dict' : Fin 26 → HandPose α) (p p' : HandPose α)
    (hp : ∀ i, p.finger i = p'.finger i)
    (hd : ∀ k i, (dict k).finger i = (dict' k).finger i) :
    (∀ d : HandPose α, HandPoseDist p d = HandPoseDist p' d) ∧
      PosePrediction dict p = PosePrediction dict p' ∧
      PosePrediction dict p = PosePrediction dict' p :=
  ⟨fun _ => HandPoseDist_congr hp (fun _ => rfl),
    PosePrediction_congr (fun _ => HandPoseDist_congr hp (fun _ => rfl)),
    PosePrediction_congr (fun k => HandPoseDist_congr (fun _ => rfl) (hd k))⟩

/-- C2 on `ladderDict`: changing the palm of the pose, or of every entry, keeps the result. -/
theorem PosePrediction_ignores_palm_witness :
    (∀ d : HandPose ℚ, HandPoseDist (ladderDict 3) d
        = HandPoseDist ⟨(ladderDict 3).finger, ⟨1, 2, 3, 4⟩⟩ d) ∧
      PosePrediction ladderDict (ladderDict 3)
        = PosePrediction ladderDict ⟨(ladderDict 3).finger, ⟨1, 2, 3, 4⟩⟩ ∧
      PosePrediction ladderDict (ladderDict 3)
        = PosePrediction (fun k => ⟨(ladderDict k).finger, ⟨5, 6, 7, 8⟩⟩) (ladderDict 3) :=
  PosePrediction_ignores_palm ladderDict (fun k => ⟨(ladderDict k).finger, ⟨5, 6, 7, 8⟩⟩)
    (ladderDict 3) ⟨(ladderDict 3).finger, ⟨1, 2, 3, 4⟩⟩ (fun _ => rfl) (fun _ _ => rfl)

/-- C10: for unit quaternions, `QuaternionDiffLenSqr q (-q) = 4`, `QuaternionDiffLenSqr q0 q1`
is at most `4`, and `HandPoseDist` between a pose of unit finger quaternions and its
finger-wise negation is `20`. -/
theorem QuaternionDiffLenSqr_opposite_sign (q q0 q1 : Quaternion α) (p : HandPose α)
    (hq : q.x * q.x + q.y * q.y + q.z * q.z + q.w * q.w = 1)
    (hq0 : q0.x * q0.x + q0.y * q0.y + q0.z * q0.z + q0.w * q0.w = 1)
    (hq1 : q1.x * q1.x + q1.y * q1.y + q1.z * q1.z + q1.w * q1.w = 1)
    (hp : ∀ i, (p.finger i).x * (p.finger i).x + (p.finger i).y * (p.finger i).y
      + (p.finger i).z * (p.finger i).z + (p.finger i).w * (p.finger i).w = 1) :
    QuaternionDiffLenSqr q ⟨-q.x, -q.y, -q.z, -q.w⟩ = 4 ∧
      QuaternionDiffLenSqr q0 q1 ≤ 4 ∧
      HandPoseDist p
        ⟨fun i => ⟨-(p.finger i).x, -(p.finger i).y, -(p.finger i).z, -(p.finger i).w⟩, p.palm⟩
        = 20 := by
  have hneg : ∀ r : Quaternion α, r.x * r.x + r.y * r.y + r.z * r.z + r.w * r.w = 1 →
      QuaternionDiffLenSqr r ⟨-r.x, -r.y, -r.z, -r.w⟩ = 4 := by
    intro r hr
    simp only [QuaternionDiffLenSqr, QuaternionSubtract]
    linear_combination 4 * hr
  refine ⟨hneg q hq, ?_, ?_⟩
  · simp only [QuaternionDiffLenSqr, QuaternionSubtract]
    nlinarith [mul_self_nonneg (q0.x + q1.x), mul_self_nonneg (q0.y + q1.y),
      mul_self_nonneg (q0.z + q1.z), mul_self_nonneg (q0.w + q1.w)]
  · rw [HandPoseDist_unfold]
    simp only [hneg _ (hp _)]
    norm_num

/-- C10 at the identity quaternion `(0, 0, 0, 1)` over `ℚ`. -/
theorem QuaternionDiffLenSqr_opposite_sign_witness :
    QuaternionDiffLenSqr (⟨0, 0, 0, 1⟩ : Quaternion ℚ) ⟨-0, -0, -0, -1⟩ = 4 ∧
      QuaternionDiffLenSqr (⟨0, 0, 0, 1⟩ : Quaternion ℚ) ⟨1, 0, 0, 0⟩ ≤ 4 ∧
      HandPoseDist (⟨fun _ => ⟨0, 0, 0, 1⟩, ⟨0, 0, 0, 1⟩⟩ : HandPose ℚ)
        ⟨fun _ => ⟨-0, -0, -0, -1⟩, ⟨0, 0, 0, 1⟩⟩ = 20 :=
  QuaternionDiffLenSqr_opposite_sign ⟨0, 0, 0, 1⟩ ⟨0, 0, 0, 1⟩ ⟨1, 0, 0, 0⟩
    ⟨fun _ => ⟨0, 0, 0, 1⟩, ⟨0, 0, 0, 1⟩⟩ (by norm_num) (by norm_num) (by norm_num)
    (fun _ => by norm_num)

/-! ## Forward kinematics: proofs -/

theorem UpdateSkeletonChildren_eq_map (lm : Libm α) (l : List (Joint α)) (M : Matrix α) :
    UpdateSkeletonChildren lm l M = l.map (fun c => UpdateSkeleton lm c M) := by
  induction l with
  | nil => simp [UpdateSkeletonChildren]
  | cons c cs ih => simp [UpdateSkeletonChildren, ih]

theorem UpdateSkeleton_transform (lm : Libm α) (j : Joint α) (M : Matrix α) :
    (UpdateSkeleton lm j M).transform =
      MatrixMultiply
        (MatrixMultiply (MatrixTranslate j.localpos.x j.localpos.y j.localpos.z)
          (MatrixRotate lm j.axis j.angle)) M := by
  cases j; simp [UpdateSkeleton]

theorem UpdateSkeleton_globalpos (lm : Libm α) (j : Joint α) (M : Matrix α) :
    (UpdateSkeleton lm j M).globalpos
      = Vector3Transform Vector3Zero (UpdateSkeleton lm j M).transform := by
  cases j; simp [UpdateSkeleton]

theorem UpdateSkeleton_localpos (lm : Libm α) (j : Joint α) (M : Matrix α) :
    (UpdateSkeleton lm j M).localpos = j.localpos := by
  cases j; simp [UpdateSkeleton]

theorem UpdateSkeleton_axis (lm : Libm α) (j : Joint α) (M : Matrix α) :
    (UpdateSkeleton lm j M).axis = j.axis := by
  cases j; simp [UpdateSkeleton]

theorem UpdateSkeleton_angle (lm : Libm α) (j : Joint α) (M : Matrix α) :
    (UpdateSkeleton lm j M).angle = j.angle := by
  cases j; simp [UpdateSkeleton]

theorem UpdateSkeleton_child (lm : Libm α) (j : Joint α) (M : Matrix α) :
    (UpdateSkeleton lm j M).child
      = j.child.map (fun c => UpdateSkeleton lm c (UpdateSkeleton lm j M).transform) := by
  cases j; simp [UpdateSkeleton, UpdateSkeletonChildren_eq_map]

theorem nodeAt_cons_UpdateSkeleton (lm : Libm α) (j : Joint α) (M : Matrix α)
    (i : Nat) (is : List Nat) :
    nodeAt (i :: is) (UpdateSkeleton lm j M) =
      (j.child[i]?).bind
        (fun c => nodeAt is (UpdateSkeleton lm c (UpdateSkeleton lm j M).transform)) := by
  rw [nodeAt, UpdateSkeleton_child, List.getElem?_map]
  cases j.child[i]? <;> rfl

/-- The shape of the tree is untouched: a path leads to a joint after the pass exactly when it
did before, and that joint is the update of the old one under some incoming matrix. -/
theorem nodeAt_UpdateSkeleton (lm : Libm α) (path : List Nat) :
    ∀ (j : Joint α) (M : Matrix α),
      ∃ P : Matrix α,
        nodeAt path (UpdateSkeleton lm j M)
          = (nodeAt path j).map (fun n => UpdateSkeleton lm n P) := by
  induction path with
  | nil => intro j M; exact ⟨M, rfl⟩
  | cons i is ih =>
    intro j M
    rw [nodeAt_cons_UpdateSkeleton]
    cases hc : j.child[i]? with
    | none => exact ⟨M, by simp [nodeAt, hc]⟩
    | some c =>
      obtain ⟨P, hP⟩ := ih c (UpdateSkeleton lm j M).transform
      exact ⟨P, by simp [nodeAt, hc, hP]⟩

mutual
/-- A second pass over an updated joint gives what a single pass gives. -/
theorem UpdateSkeleton_UpdateSkeleton (lm : Libm α) :
    ∀ (j : Joint α) (M0 M : Matrix α),
      UpdateSkeleton lm (UpdateSkeleton lm j M0) M = UpdateSkeleton lm j M
  | ⟨_, _, _, _, _, child⟩, M0, M => by
    simp only [UpdateSkeleton]
    rw [UpdateSkeletonChildren_UpdateSkeletonChildren lm child]
/-- A second pass over an updated child array gives what a single pass gives. -/
theorem UpdateSkeletonChildren_UpdateSkeletonChildren (lm : Libm α) :
    ∀ (l : List (Joint α)) (M0 M : Matrix α),
      UpdateSkeletonChildren lm (UpdateSkeletonChildren lm l M0) M
        = UpdateSkeletonChildren lm l M
  | [], _, _ => by simp [UpdateSkeletonChildren]
  | c :: cs, M0, M => by
    simp only [UpdateSkeletonChildren]
    rw [UpdateSkeleton_UpdateSkeleton lm c, UpdateSkeletonChildren_UpdateSkeletonChildren lm cs]
end

theorem MatrixRotate_angle_zero (lm : Libm α) (h0 : lm.sinf 0 = 0) (h1 : lm.cosf 0 = 1)
    (axis : Vector3 α) : MatrixRotate lm axis 0 = MatrixIdentity := by
  simp [MatrixRotate, MatrixIdentity, h0, h1]

theorem MatrixMultiply_identity_right (m : Matrix α) :
    MatrixMultiply m MatrixIdentity = m := by
  cases m; simp [MatrixMultiply, MatrixIdentity]

/-- With a zero axis `MatrixRotate` skips the normalisation and every term carrying an axis
component vanishes: what is left is the uniform scaling by `cosf angle`. -/
theorem MatrixRotate_zero_axis (lm : Libm α) (angle : α) :
    MatrixRotate lm ⟨0, 0, 0⟩ angle =
      { m0 := lm.cosf angle, m4 := 0, m8 := 0, m12 := 0,
        m1 := 0, m5 := lm.cosf angle, m9 := 0, m13 := 0,
        m2 := 0, m6 := 0, m10 := lm.cosf angle, m14 := 0,
        m3 := 0, m7 := 0, m11 := 0, m15 := 1 } := by
  simp [MatrixRotate]

/-- C3: after `UpdateSkeleton(root, M)` every node `n` of the tree (reached by any path of
child indices) has `transform = MatrixMultiply(MatrixMultiply(translate(localpos),
rotate(axis, angle)), P)` with `P = M` at the root and the parent's new transform elsewhere,
and `globalpos` the origin transformed by that transform; `localpos`, `axis`, `angle` are the
values held before the call, which the pass leaves in place. -/
theorem UpdateSkeleton_every_node (lm : Libm α) (path : List Nat) :
    ∀ (root : Joint α) (M : Matrix α) (n : Joint α), nodeAt path root = some n →
      ∃ (n' : Joint α) (P : Matrix α),
        nodeAt path (UpdateSkeleton lm root M) = some n' ∧
        n'.transform =
          MatrixMultiply
            (MatrixMultiply (MatrixTranslate n.localpos.x n.localpos.y n.localpos.z)
              (MatrixRotate lm n.axis n.angle)) P ∧
        n'.globalpos = Vector3Transform Vector3Zero n'.transform ∧
        (n'.localpos = n.localpos ∧ n'.axis = n.axis ∧ n'.angle = n.angle) ∧
        (path = [] → P = M) ∧
        (∀ (parent : List Nat) (i : Nat), path = parent ++ [i] →
          (nodeAt parent (UpdateSkeleton lm root M)).map Joint.transform = some P) := by
  induction path with
  | nil =>
    intro root M n h
    simp only [nodeAt, Option.some.injEq] at h
    subst h
    exact ⟨UpdateSkeleton lm root M, M, rfl, UpdateSkeleton_transform lm root M,
      UpdateSkeleton_globalpos lm root M,
      ⟨UpdateSkeleton_localpos lm root M, UpdateSkeleton_axis lm root M,
        UpdateSkeleton_angle lm root M⟩,
      fun _ => rfl, fun parent i hp => absurd hp (by simp)⟩
  | cons i is ih =>
    intro root M n h
    cases hc : root.child[i]? with
    | none => simp [nodeAt, hc] at h
    | some c =>
      have hn : nodeAt is c = some n := by simpa [nodeAt, hc] using h
      obtain ⟨n', P, hnode, htr, hgp, hloc, hroot, hparent⟩ :=
        ih c (UpdateSkeleton lm root M).transform n hn
      refine ⟨n', P, ?_, htr, hgp, hloc, fun hnil => absurd hnil (by simp), ?_⟩
      · rw [nodeAt_cons_UpdateSkeleton, hc]
        exact hnode
      · intro parent k hp
        cases parent with
        | nil =>
          simp only [List.nil_append, List.cons.injEq] at hp
          rw [hroot hp.2]
          rfl
        | cons a parent' =>
          simp only [List.cons_append, List.cons.injEq] at hp
          rw [← hp.1, nodeAt_cons_UpdateSkeleton, hc]
          exact hparent parent' k hp.2

/-- C3 on the hand skeleton over `ℚ`: the first joint of finger 2 after a pass from the
identity. -/
theorem UpdateSkeleton_every_node_witness :
    ∃ (n' : Joint ℚ) (P : Matrix ℚ),
      nodeAt [2, 0]
          (UpdateSkeleton ⟨id, id, id, id⟩ (handSkeleton fun _ => MatrixIdentity) MatrixIdentity)
        = some n' ∧
      n'.transform =
        MatrixMultiply
          (MatrixMultiply (MatrixTranslate (20 / 100) 0 0)
            (MatrixRotate ⟨id, id, id, id⟩ ⟨0, 0, 1⟩ 0)) P ∧
      n'.globalpos = Vector3Transform Vector3Zero n'.transform ∧
      (n'.localpos = ⟨20 / 100, 0, 0⟩ ∧ n'.axis = ⟨0, 0, 1⟩ ∧ n'.angle = 0) ∧
      (([2, 0] : List Nat) = [] → P = MatrixIdentity) ∧
      (∀ (parent : List Nat) (i : Nat), [2, 0] = parent ++ [i] →
        (nodeAt parent
          (UpdateSkeleton ⟨id, id, id, id⟩ (handSkeleton fun _ => MatrixIdentity)
            MatrixIdentity)).map Joint.transform = some P) :=
  UpdateSkeleton_every_node ⟨id, id, id, id⟩ [2, 0] (handSkeleton fun _ => MatrixIdentity)
    MatrixIdentity
    ⟨Vector3Zero, ⟨20 / 100, 0, 0⟩, ⟨0, 0, 1⟩, 0, MatrixIdentity,
      [⟨Vector3Zero, ⟨20 / 100, 0, 0⟩, ⟨0, 0, 1⟩, 0, MatrixIdentity,
        [⟨Vector3Zero, ⟨20 / 100, 0, 0⟩, ⟨0, 0, 1⟩, 0, MatrixIdentity,
          [⟨Vector3Zero, ⟨20 / 100, 0, 0⟩, ⟨0, 0, 1⟩, 0, MatrixIdentity, []⟩]⟩]⟩]⟩
    (by rfl)

/-- C5: a second `UpdateSkeleton(t, M)` on the result of the first yields the same tree, so
every node's `globalpos` and `transform` agree after the first and the second pass; and a pass
changes no node's `localpos`, `axis`, `angle` or child count. -/
theorem UpdateSkeleton_idempotent (lm : Libm α) (t : Joint α) (M : Matrix α) :
    UpdateSkeleton lm (UpdateSkeleton lm t M) M = UpdateSkeleton lm t M ∧
    (∀ path : List Nat,
      (nodeAt path (UpdateSkeleton lm (UpdateSkeleton lm t M) M)).map
          (fun n => (n.globalpos, n.transform))
        = (nodeAt path (UpdateSkeleton lm t M)).map (fun n => (n.globalpos, n.transform))) ∧
    (∀ path : List Nat,
      (nodeAt path (UpdateSkeleton lm t M)).map
          (fun n => (n.localpos, n.axis, n.angle, n.numchild))
        = (nodeAt path t).map (fun n => (n.localpos, n.axis, n.angle, n.numchild))) := by
  refine ⟨UpdateSkeleton_UpdateSkeleton lm t M M, ?_, ?_⟩
  · intro path
    rw [UpdateSkeleton_UpdateSkeleton lm t M M]
  · intro path
    obtain ⟨P, hP⟩ := nodeAt_UpdateSkeleton lm path t M
    rw [hP]
    cases nodeAt path t with
    | none => rfl
    | some n =>
      simp [Joint.numchild, UpdateSkeleton_localpos, UpdateSkeleton_axis, UpdateSkeleton_angle,
        UpdateSkeleton_child]

/-- C4: over the reals, for the chain of a root with local offset `(0,0,0)`, axis `(0,1,0)`
and angle `θ` and one child with local offset `(1,0,0)` and angle `0`,
`UpdateSkeleton(root, identity)` sets the child's `globalpos` to `(cos θ, 0, -sin θ)`; this
holds whatever the child's axis and the stale derived fields are, in particular for the chain
built with `LoadJoint` and `AttachChildJoints`. -/
theorem UpdateSkeleton_two_joint_chain (θ : ℝ) (childAxis gp0 gp1 : Vector3 ℝ)
    (tr0 tr1 : Matrix ℝ) (uninit : Nat → Matrix ℝ) :
    (nodeAt [0]
        (UpdateSkeleton ⟨Real.sqrt, Real.sin, Real.cos, Real.arccos⟩
          ⟨gp0, ⟨0, 0, 0⟩, ⟨0, 1, 0⟩, θ, tr0, [⟨gp1, ⟨1, 0, 0⟩, childAxis, 0, tr1, []⟩]⟩
          MatrixIdentity)).map Joint.globalpos
      = some ⟨Real.cos θ, 0, -Real.sin θ⟩ ∧
    (nodeAt [0]
        (UpdateSkeleton ⟨Real.sqrt, Real.sin, Real.cos, Real.arccos⟩
          (modifyAt [0] (fun j : Joint ℝ => { j with localpos := ⟨1, 0, 0⟩ })
            (AttachChildJoints uninit
              { LoadJoint (uninit 0) Vector3Zero ⟨0, 1, 0⟩ with angle := θ } 1))
          MatrixIdentity)).map Joint.globalpos
      = some ⟨Real.cos θ, 0, -Real.sin θ⟩ := by
  have key : ∀ (ax g0 g1 : Vector3 ℝ) (t0 t1 : Matrix ℝ),
      (nodeAt [0]
        (UpdateSkeleton ⟨Real.sqrt, Real.sin, Real.cos, Real.arccos⟩
          ⟨g0, ⟨0, 0, 0⟩, ⟨0, 1, 0⟩, θ, t0, [⟨g1, ⟨1, 0, 0⟩, ax, 0, t1, []⟩]⟩
          MatrixIdentity)).map Joint.globalpos
      = some ⟨Real.cos θ, 0, -Real.sin θ⟩ := by
    intro ax g0 g1 t0 t1
    rw [nodeAt_cons_UpdateSkeleton]
    simp only [List.getElem?_cons_zero, Option.some_bind, nodeAt, Option.map_some',
      UpdateSkeleton_globalpos, UpdateSkeleton_transform, MatrixMultiply_identity_right,
      MatrixRotate_angle_zero ⟨Real.sqrt, Real.sin, Real.cos, Real.arccos⟩ Real.sin_zero
        Real.cos_zero]
    simp [MatrixTranslate, MatrixRotate, MatrixMultiply, MatrixIdentity, Vector3Transform,
      Vector3Zero]
  refine ⟨key childAxis gp0 gp1 tr0 tr1, ?_⟩
  have hbuild :
      modifyAt [0] (fun j : Joint ℝ => { j with localpos := ⟨1, 0, 0⟩ })
          (AttachChildJoints uninit
            { LoadJoint (uninit 0) Vector3Zero ⟨0, 1, 0⟩ with angle := θ } 1)
        = (⟨Vector3Zero, ⟨0, 0, 0⟩, ⟨0, 1, 0⟩, θ, uninit 0,
            [⟨Vector3Zero, ⟨1, 0, 0⟩, Vector3Zero, 0, uninit 0, []⟩]⟩ : Joint ℝ) := rfl
  rw [hbuild]
  exact key _ _ _ _ _

/-- C8 fails: a joint with zero axis, angle `π` and local offset `(1,0,0)`, updated from the
identity, gets a transform other than `MatrixMultiply(translate(localpos), identity)` and the
`globalpos` `(-1,0,0)`, not the `(1,0,0)` it has with angle `0`. -/
theorem UpdateSkeleton_zero_axis_not_identity :
    (UpdateSkeleton ⟨Real.sqrt, Real.sin, Real.cos, Real.arccos⟩
        ⟨Vector3Zero, ⟨1, 0, 0⟩, ⟨0, 0, 0⟩, Real.pi, MatrixIdentity, []⟩ MatrixIdentity).transform
      ≠ MatrixMultiply (MatrixTranslate 1 0 0) MatrixIdentity ∧
    (UpdateSkeleton ⟨Real.sqrt, Real.sin, Real.cos, Real.arccos⟩
        ⟨Vector3Zero, ⟨1, 0, 0⟩, ⟨0, 0, 0⟩, Real.pi, MatrixIdentity, []⟩ MatrixIdentity).globalpos
      = ⟨-1, 0, 0⟩ ∧
    (UpdateSkeleton ⟨Real.sqrt, Real.sin, Real.cos, Real.arccos⟩
        ⟨Vector3Zero, ⟨1, 0, 0⟩, ⟨0, 0, 0⟩, 0, MatrixIdentity, []⟩ MatrixIdentity).globalpos
      = ⟨1, 0, 0⟩ := by
  refine ⟨?_, ?_, ?_⟩
  · intro h
    have h12 := congrArg Matrix.m12 h
    rw [UpdateSkeleton_transform, MatrixRotate_zero_axis] at h12
    simp [MatrixMultiply, MatrixTranslate, MatrixIdentity] at h12
    linarith
  · rw [UpdateSkeleton_globalpos, UpdateSkeleton_transform, MatrixRotate_zero_axis]
    simp [MatrixMultiply, MatrixTranslate, MatrixIdentity, Vector3Transform, Vector3Zero]
  · rw [UpdateSkeleton_globalpos, UpdateSkeleton_transform, MatrixRotate_zero_axis]
    simp [MatrixMultiply, MatrixTranslate, MatrixIdentity, Vector3Transform, Vector3Zero]

/-- C8 as amended: for a joint whose axis is the zero vector `UpdateSkeleton` uses, in place of
a rotation, the uniform scaling by `c = cosf angle`, so the transform is
`MatrixMultiply(MatrixMultiply(translate(localpos), diag(c, c, c, 1)), incoming)`; when
`cosf angle = 1` this is `MatrixMultiply(translate(localpos), incoming)` and the updated
subtree (the joint's `globalpos` and its descendants) is the one obtained with angle `0`. -/
theorem UpdateSkeleton_zero_axis (lm : Libm α) (j : Joint α) (M : Matrix α)
    (haxis : j.axis = ⟨0, 0, 0⟩) :
    (UpdateSkeleton lm j M).transform =
      MatrixMultiply
        (MatrixMultiply (MatrixTranslate j.localpos.x j.localpos.y j.localpos.z)
          { m0 := lm.cosf j.angle, m4 := 0, m8 := 0, m12 := 0,
            m1 := 0, m5 := lm.cosf j.angle, m9 := 0, m13 := 0,
            m2 := 0, m6 := 0, m10 := lm.cosf j.angle, m14 := 0,
            m3 := 0, m7 := 0, m11 := 0, m15 := 1 }) M ∧
    (lm.cosf j.angle = 1 →
      (UpdateSkeleton lm j M).transform =
        MatrixMultiply (MatrixTranslate j.localpos.x j.localpos.y j.localpos.z) M ∧
      (lm.cosf 0 = 1 →
        UpdateSkeleton lm j M
          = { UpdateSkeleton lm { j with angle := 0 } M with angle := j.angle })) := by
  have hid : ∀ a : α, lm.cosf a = 1 → MatrixRotate lm ⟨0, 0, 0⟩ a = MatrixIdentity := by
    intro a ha
    rw [MatrixRotate_zero_axis, ha]; rfl
  refine ⟨by rw [UpdateSkeleton_transform, haxis, MatrixRotate_zero_axis], fun hc => ⟨?_, ?_⟩⟩
  · rw [UpdateSkeleton_transform, haxis, hid _ hc, MatrixMultiply_identity_right]
  · intro h0
    obtain ⟨gp, lp, ax, an, tr, ch⟩ := j
    simp only at haxis hc
    subst haxis
    simp only [UpdateSkeleton, hid _ hc, hid _ h0]

/-- C8 as amended, at a zero-axis joint with the nonzero angle `2π` over the reals. -/
theorem UpdateSkeleton_zero_axis_witness :
    (UpdateSkeleton ⟨Real.sqrt, Real.sin, Real.cos, Real.arccos⟩
        ⟨Vector3Zero, ⟨1, 0, 0⟩, ⟨0, 0, 0⟩, 2 * Real.pi, MatrixIdentity, []⟩
        MatrixIdentity).transform
      = MatrixMultiply (MatrixTranslate 1 0 0) MatrixIdentity ∧
    UpdateSkeleton ⟨Real.sqrt, Real.sin, Real.cos, Real.arccos⟩
        ⟨Vector3Zero, ⟨1, 0, 0⟩, ⟨0, 0, 0⟩, 2 * Real.pi, MatrixIdentity, []⟩ MatrixIdentity
      = { UpdateSkeleton ⟨Real.sqrt, Real.sin, Real.cos, Real.arccos⟩
            ⟨Vector3Zero, ⟨1, 0, 0⟩, ⟨0, 0, 0⟩, 0, MatrixIdentity, []⟩ MatrixIdentity with
          angle := 2 * Real.pi } :=
  ⟨((UpdateSkeleton_zero_axis ⟨Real.sqrt, Real.sin, Real.cos, Real.arccos⟩
      ⟨Vector3Zero, ⟨1, 0, 0⟩, ⟨0, 0, 0⟩, 2 * Real.pi, MatrixIdentity, []⟩ MatrixIdentity
      rfl).2 Real.cos_two_pi).1,
    ((UpdateSkeleton_zero_axis ⟨Real.sqrt, Real.sin, Real.cos, Real.arccos⟩
      ⟨Vector3Zero, ⟨1, 0, 0⟩, ⟨0, 0, 0⟩, 2 * Real.pi, MatrixIdentity, []⟩ MatrixIdentity
      rfl).2 Real.cos_two_pi).2 Real.cos_zero⟩


/-- What `AttachChildJoints` establishes: `numchild = n`; child `i` has zero local offset,
axis, angle and `globalpos`, no children, and the `transform` left by the uninitialised
storage; the other fields of `base` are untouched. -/
theorem AttachChildJoints_children (uninit : Nat → Matrix α) (base : Joint α) (n : Nat) :
    (AttachChildJoints uninit base n).numchild = n ∧
    (∀ i, i < n → (AttachChildJoints uninit base n).child[i]?
      = some ⟨Vector3Zero, Vector3Zero, Vector3Zero, 0, uninit i, []⟩) ∧
    (AttachChildJoints uninit base n).localpos = base.localpos ∧
    (AttachChildJoints uninit base n).axis = base.axis ∧
    (AttachChildJoints uninit base n).angle = base.angle ∧
    (AttachChildJoints uninit base n).globalpos = base.globalpos := by
  refine ⟨by simp [AttachChildJoints, Joint.numchild], ?_, rfl, rfl, rfl, rfl⟩
  intro i hi
  simp [AttachChildJoints, LoadJoint, List.getElem?_range hi]

/-- C9 fails on the derived field `transform`: `LoadJoint` never assigns it, so the child made
by `AttachChildJoints(base, 1)` carries whatever its storage held, here the identity matrix,
which is not the zero matrix; the other fields are initialised as claimed. -/
theorem AttachChildJoints_transform_uninitialised :
    (AttachChildJoints (fun _ => (MatrixIdentity : Matrix ℚ))
        (LoadJoint MatrixIdentity Vector3Zero ⟨0, 1, 0⟩) 1).child
      = [⟨⟨0, 0, 0⟩, ⟨0, 0, 0⟩, ⟨0, 0, 0⟩, 0, MatrixIdentity, []⟩] ∧
    (MatrixIdentity : Matrix ℚ) ≠ ⟨0, 0, 0, 0, 0, 0, 0, 0, 0, 0, 0, 0, 0, 0, 0, 0⟩ := by
  refine ⟨rfl, ?_⟩
  intro h
  have h0 := congrArg Matrix.m0 h
  simp [MatrixIdentity] at h0

/-! ## Per-frame read and mapping: proofs -/


section
variable {β : Type}

theorem nodeAt_cons_modifyAt_ne (f : Joint β → Joint β) (j : Joint β) {i k : Nat} (h : k ≠ i)
    (rest p : List Nat) :
    nodeAt (i :: rest) (modifyAt (k :: p) f j) = nodeAt (i :: rest) j := by
  simp [nodeAt, modifyAt, List.getElem?_modify_ne _ _ h]

theorem nodeAt_cons_modifyAt_cons (f : Joint β → Joint β) (j : Joint β) (k : Nat)
    (rest p : List Nat) :
    nodeAt (k :: rest) (modifyAt (k :: p) f j)
      = (j.child[k]?).bind (fun c => nodeAt rest (modifyAt p f c)) := by
  simp only [nodeAt, modifyAt, List.getElem?_modify_eq]
  cases j.child[k]? <;> rfl
end

theorem readSensor_some (lm : Libm α) (s : FrameState α) (fields : List α) (i : Fin 5) :
    (readSensor lm s (some fields)).bend = (sscanfLine s fields).1.bend ∧
    (readSensor lm s (some fields)).palm_rot = (sscanfLine s fields).1.palm_rot ∧
    (readSensor lm s (some fields)).root = s.root ∧
    (readSensor lm s (some fields)).angle i
      = (QuaternionToAxisAngle lm ((sscanfLine s fields).1.bend i)).2 / 8 ∧
    (readSensor lm s (some fields)).axis i
      = (QuaternionToAxisAngle lm ((sscanfLine s fields).1.bend i)).1 := by
  have h5 : List.finRange 5 = [0, 1, 2, 3, 4] := rfl
  have hroot : ∀ (l : List α) (n : Nat) (t : FrameState α),
      ((l.enumFrom n).foldl (fun s kv => sscanfStore s kv.1 kv.2) t).root = t.root := by
    intro l
    induction l with
    | nil => intro n t; rfl
    | cons a l ih =>
      intro n t
      rw [List.enumFrom_cons, List.foldl_cons, ih]
      simp only [sscanfStore]
      split_ifs <;> rfl
  refine ⟨?_, ?_, ?_, ?_, ?_⟩
  · simp [readSensor, h5]
  · simp [readSensor, h5]
  · simp only [readSensor, h5, List.foldl_cons, List.foldl_nil, sscanfLine, List.enum]
    exact hroot _ _ _
  · fin_cases i <;> simp [readSensor, h5, Function.update]
  · fin_cases i <;> simp [readSensor, h5, Function.update]

theorem mapFinger_other (lm : Libm α) (s : FrameState α) (k : Fin 5) {i : Nat}
    (h : k.val ≠ i) (rest : List Nat) :
    nodeAt (i :: rest) (mapFinger lm s k).root = nodeAt (i :: rest) s.root := by
  simp only [mapFinger, nodeAt_cons_modifyAt_ne _ _ h]

/-- What the loop body at lines 336-346 does to the chain of finger `k`. -/
theorem mapFinger_same (lm : Libm α) (s : FrameState α) (k : Fin 5)
    (hshape : (nodeAt [k.val, 0, 0, 0, 0] s.root).isSome = true) :
    FingerMapped lm s.root (mapFinger lm s k).root k (s.axis k) (s.angle k) := by
  unfold FingerMapped
  cases h1 : s.root.child[k.val]? with
  | none => simp [nodeAt, h1] at hshape
  | some c1 =>
  cases h2 : c1.child[0]? with
  | none => simp [nodeAt, h1, h2] at hshape
  | some c2 =>
  cases h3 : c2.child[0]? with
  | none => simp [nodeAt, h1, h2, h3] at hshape
  | some c3 =>
  cases h4 : c3.child[0]? with
  | none => simp [nodeAt, h1, h2, h3, h4] at hshape
  | some c4 =>
  cases h5 : c4.child[0]? with
  | none => simp [nodeAt, h1, h2, h3, h4, h5] at hshape
  | some c5 =>
    simp [mapFinger, nodeAt, modifyAt, List.getElem?_modify_eq, h1, h2, h3, h4, h5]

theorem foldl_mapFinger_other (lm : Libm α) (i : Nat) (rest : List Nat) (l : List (Fin 5)) :
    ∀ s : FrameState α, (∀ k ∈ l, k.val ≠ i) →
      nodeAt (i :: rest) (l.foldl (mapFinger lm) s).root = nodeAt (i :: rest) s.root := by
  induction l with
  | nil => intro s _; rfl
  | cons k l ih =>
    intro s h
    rw [List.foldl_cons, ih _ (fun k' hk' => h k' (List.mem_cons_of_mem _ hk')),
      mapFinger_other lm s k (h k (List.mem_cons_self _ _))]

theorem foldl_mapFinger_fields (lm : Libm α) (l : List (Fin 5)) :
    ∀ s : FrameState α,
      (l.foldl (mapFinger lm) s).angle = s.angle ∧ (l.foldl (mapFinger lm) s).axis = s.axis ∧
      (l.foldl (mapFinger lm) s).bend = s.bend ∧
      (l.foldl (mapFinger lm) s).palm_rot = s.palm_rot ∧
      (l.foldl (mapFinger lm) s).root.angle = s.root.angle := by
  induction l with
  | nil => intro s; exact ⟨rfl, rfl, rfl, rfl, rfl⟩
  | cons k l ih =>
    intro s
    rw [List.foldl_cons]
    obtain ⟨h1, h2, h3, h4, h5⟩ := ih (mapFinger lm s k)
    exact ⟨h1, h2, h3, h4, by rw [h5]; rfl⟩

theorem foldl_mapFinger_split (lm : Libm α) (s : FrameState α) (pre post : List (Fin 5))
    (i : Fin 5) (hpre : ∀ k ∈ pre, k.val ≠ i.val) (hpost : ∀ k ∈ post, k.val ≠ i.val)
    (hshape : (nodeAt [i.val, 0, 0, 0, 0] s.root).isSome = true) :
    FingerMapped lm s.root ((pre ++ i :: post).foldl (mapFinger lm) s).root i
      (s.axis i) (s.angle i) := by
  have hs : (nodeAt [i.val, 0, 0, 0, 0] (pre.foldl (mapFinger lm) s).root).isSome = true := by
    rw [foldl_mapFinger_other lm _ _ pre s hpre]; exact hshape
  have h := mapFinger_same lm (pre.foldl (mapFinger lm) s) i hs
  obtain ⟨ha, hx, _, _, _⟩ := foldl_mapFinger_fields lm pre s
  rw [ha, hx] at h
  unfold FingerMapped at h ⊢
  simp only [List.foldl_append, List.foldl_cons, foldl_mapFinger_other lm _ _ post _ hpost]
  rw [foldl_mapFinger_other lm _ _ pre s hpre] at h
  exact h

theorem mapFingers_finger (lm : Libm α) (s : FrameState α) (i : Fin 5)
    (hshape : (nodeAt [i.val, 0, 0, 0, 0] s.root).isSome = true) :
    FingerMapped lm s.root (mapFingers lm s).root i (s.axis i) (s.angle i) := by
  unfold mapFingers
  fin_cases i
  · exact foldl_mapFinger_split lm s [] [1, 2, 3, 4] 0 (by decide) (by decide) hshape
  · exact foldl_mapFinger_split lm s [0] [2, 3, 4] 1 (by decide) (by decide) hshape
  · exact foldl_mapFinger_split lm s [0, 1] [3, 4] 2 (by decide) (by decide) hshape
  · exact foldl_mapFinger_split lm s [0, 1, 2] [4] 3 (by decide) (by decide) hshape
  · exact foldl_mapFinger_split lm s [0, 1, 2, 3] [] 4 (by decide) (by decide) hshape

/-- The read-and-map step after a line was read, finger by finger. -/
theorem readAndMap_finger (lm : Libm α) (s : FrameState α) (fields : List α) (i : Fin 5)
    (hshape : (nodeAt [i.val, 0, 0, 0, 0] s.root).isSome = true) :
    (readAndMap lm s (some fields)).bend = (sscanfLine s fields).1.bend ∧
    (readAndMap lm s (some fields)).angle i
      = (QuaternionToAxisAngle lm ((readAndMap lm s (some fields)).bend i)).2 / 8 ∧
    (readAndMap lm s (some fields)).axis i
      = (QuaternionToAxisAngle lm ((readAndMap lm s (some fields)).bend i)).1 ∧
    FingerMapped lm s.root (readAndMap lm s (some fields)).root i
      ((readAndMap lm s (some fields)).axis i) ((readAndMap lm s (some fields)).angle i) := by
  obtain ⟨hb, _, hr, ha, hx⟩ := readSensor_some lm s fields i
  obtain ⟨fa, fx, fb, _, _⟩ :=
    foldl_mapFinger_fields lm (List.finRange 5) (mapPalm lm (readSensor lm s (some fields)))
  have hbend : (readAndMap lm s (some fields)).bend = (sscanfLine s fields).1.bend := by
    unfold readAndMap mapFingers; rw [fb]; exact hb
  have hangle : (readAndMap lm s (some fields)).angle i
      = (readSensor lm s (some fields)).angle i := by
    unfold readAndMap mapFingers; rw [fa]; rfl
  have haxis : (readAndMap lm s (some fields)).axis i
      = (readSensor lm s (some fields)).axis i := by
    unfold readAndMap mapFingers; rw [fx]; rfl
  refine ⟨hbend, by rw [hangle, ha, hbend], by rw [haxis, hx, hbend], ?_⟩
  have hs : (nodeAt [i.val, 0, 0, 0, 0]
      (mapPalm lm (readSensor lm s (some fields))).root).isSome = true := by
    have : nodeAt [i.val, 0, 0, 0, 0] (mapPalm lm (readSensor lm s (some fields))).root
        = nodeAt [i.val, 0, 0, 0, 0] (readSensor lm s (some fields)).root := rfl
    rw [this, hr]; exact hshape
  have h := mapFingers_finger lm (mapPalm lm (readSensor lm s (some fields))) i hs
  rw [hangle, haxis]
  unfold FingerMapped at h ⊢
  have e : ∀ rest, nodeAt (i.val :: rest) (mapPalm lm (readSensor lm s (some fields))).root
      = nodeAt (i.val :: rest) s.root := by
    intro rest
    have : nodeAt (i.val :: rest) (mapPalm lm (readSensor lm s (some fields))).root
        = nodeAt (i.val :: rest) (readSensor lm s (some fields)).root := rfl
    rw [this, hr]
  rw [e] at h
  exact h

theorem handSkeleton_shape (uninit : Nat → Matrix α) (i : Fin 5) :
    (nodeAt [i.val, 0, 0, 0, 0] (handSkeleton uninit)).isSome = true := by
  fin_cases i <;> rfl

theorem QuaternionToAxisAngle_real_w_zero (x y z : ℝ) :
    (QuaternionToAxisAngle ⟨Real.sqrt, Real.sin, Real.cos, Real.arccos⟩ ⟨x, y, z, 0⟩).2
      = Real.pi := by
  have h : ¬ ((1 : ℝ) < 0) := by norm_num
  simp [QuaternionToAxisAngle, Real.arccos_zero, h]
  ring

theorem QuaternionToAxisAngle_real_w_one (x y z : ℝ) :
    (QuaternionToAxisAngle ⟨Real.sqrt, Real.sin, Real.cos, Real.arccos⟩ ⟨x, y, z, 1⟩).2
      = 0 := by
  simp [QuaternionToAxisAngle, Real.arccos_one]

theorem sscanfLine_halfTurnLine_bend :
    (sscanfLine (initialState fun _ => (MatrixIdentity : Matrix ℝ)) halfTurnLine).1.bend 0
      = ⟨1, 0, 0, 0⟩ := by
  rfl

/-- C7 fails at the first joint: from the initial state, after the fully parsed sample
`halfTurnLine`, `a_0 = π / 8`, yet the first joint of finger 0, `root.child[0].child[0]`, has
angle `0` and not `1 * a_0`. -/
theorem readAndMap_first_joint_angle :
    (QuaternionToAxisAngle ⟨Real.sqrt, Real.sin, Real.cos, Real.arccos⟩
        ((readAndMap ⟨Real.sqrt, Real.sin, Real.cos, Real.arccos⟩
          (initialState fun _ => MatrixIdentity) (some halfTurnLine)).bend 0)).2 / 8
      = Real.pi / 8 ∧
    (nodeAt [0, 0]
        (readAndMap ⟨Real.sqrt, Real.sin, Real.cos, Real.arccos⟩
          (initialState fun _ => MatrixIdentity) (some halfTurnLine)).root).map Joint.angle
      = some 0 ∧
    (nodeAt [0, 0]
        (readAndMap ⟨Real.sqrt, Real.sin, Real.cos, Real.arccos⟩
          (initialState fun _ => MatrixIdentity) (some halfTurnLine)).root).map Joint.angle
      ≠ some (1 * ((QuaternionToAxisAngle ⟨Real.sqrt, Real.sin, Real.cos, Real.arccos⟩
        ((readAndMap ⟨Real.sqrt, Real.sin, Real.cos, Real.arccos⟩
          (initialState fun _ => MatrixIdentity) (some halfTurnLine)).bend 0)).2 / 8)) := by
  obtain ⟨hb, _, _, hf⟩ := readAndMap_finger ⟨Real.sqrt, Real.sin, Real.cos, Real.arccos⟩
    (initialState fun _ => MatrixIdentity) halfTurnLine 0 (handSkeleton_shape _ 0)
  have hq : (readAndMap ⟨Real.sqrt, Real.sin, Real.cos, Real.arccos⟩
      (initialState fun _ => MatrixIdentity) (some halfTurnLine)).bend 0 = ⟨1, 0, 0, 0⟩ := by
    rw [hb]; exact sscanfLine_halfTurnLine_bend
  have h0 : (nodeAt [0, 0]
      (readAndMap ⟨Real.sqrt, Real.sin, Real.cos, Real.arccos⟩
        (initialState fun _ => MatrixIdentity) (some halfTurnLine)).root).map Joint.angle
      = some 0 := by
    exact hf.1.trans rfl
  rw [hq, QuaternionToAxisAngle_real_w_zero, h0]
  refine ⟨rfl, rfl, ?_⟩
  intro h
  have := Option.some.inj h
  have hpi := Real.pi_pos
  linarith

/-- C7 as amended: after a line is read (so after every successfully parsed sample), with
`a_i` the axis-angle angle of `bend[i]` divided by 8 (the value left in `angle[i]`), the
mapping step gives the second, third and fourth joints of the chain below `root.child[i]` the
angles `2 * a_i`, `3 * a_i`, `4 * a_i`; the first joint `root.child[i].child[0]` keeps the
angle it had and gets the axis `Vector3RotateByAxisAngle(metacarpalAxis, tmpAxis, 8 * a_i)`
with `tmpAxis = (-axis_i.x, -axis_i.z, -axis_i.y)`. -/
theorem readAndMap_finger_chain (lm : Libm α) (s : FrameState α) (fields : List α) (i : Fin 5)
    (hshape : (nodeAt [i.val, 0, 0, 0, 0] s.root).isSome = true) :
    let s' := readAndMap lm s (some fields)
    let a := (QuaternionToAxisAngle lm (s'.bend i)).2 / 8
    let ax := (QuaternionToAxisAngle lm (s'.bend i)).1
    s'.angle i = a ∧
    (nodeAt [i.val, 0, 0] s'.root).map Joint.angle = some (2 * a) ∧
    (nodeAt [i.val, 0, 0, 0] s'.root).map Joint.angle = some (3 * a) ∧
    (nodeAt [i.val, 0, 0, 0, 0] s'.root).map Joint.angle = some (4 * a) ∧
    (nodeAt [i.val, 0] s'.root).map Joint.angle = (nodeAt [i.val, 0] s.root).map Joint.angle ∧
    (nodeAt [i.val, 0] s'.root).map Joint.axis
      = some (Vector3RotateByAxisAngle lm metacarpalAxis ⟨-ax.x, -ax.z, -ax.y⟩ (a * 8)) := by
  intro s' a ax
  obtain ⟨_, ha, hx, h1, h2, h3, h4, h5⟩ := readAndMap_finger lm s fields i hshape
  rw [ha, hx] at h2
  rw [ha] at h3 h4 h5
  exact ⟨ha, h3, h4, h5, h1, h2⟩

/-- C7 as amended, on the skeleton built by `main` and the sample `halfTurnLine`, finger 2. -/
theorem readAndMap_finger_chain_witness :
    (nodeAt [2, 0, 0]
        (readAndMap ⟨Real.sqrt, Real.sin, Real.cos, Real.arccos⟩
          (initialState fun _ => MatrixIdentity) (some halfTurnLine)).root).map Joint.angle
      = some (2 * ((QuaternionToAxisAngle ⟨Real.sqrt, Real.sin, Real.cos, Real.arccos⟩
          ((readAndMap ⟨Real.sqrt, Real.sin, Real.cos, Real.arccos⟩
            (initialState fun _ => MatrixIdentity) (some halfTurnLine)).bend 2)).2 / 8)) ∧
    (nodeAt [2, 0]
        (readAndMap ⟨Real.sqrt, Real.sin, Real.cos, Real.arccos⟩
          (initialState fun _ => MatrixIdentity) (some halfTurnLine)).root).map Joint.angle
      = (nodeAt [2, 0] (initialState fun _ => (MatrixIdentity : Matrix ℝ)).root).map
          Joint.angle :=
  ⟨(readAndMap_finger_chain ⟨Real.sqrt, Real.sin, Real.cos, Real.arccos⟩
      (initialState fun _ => MatrixIdentity) halfTurnLine 2 (handSkeleton_shape _ 2)).2.1,
    (readAndMap_finger_chain ⟨Real.sqrt, Real.sin, Real.cos, Real.arccos⟩
      (initialState fun _ => MatrixIdentity) halfTurnLine 2 (handSkeleton_shape _ 2)).2.2.2.2.1⟩

/-- C6 fails: after the valid sample `identityLine`, a line from which one field `0` parses
overwrites `bend[4].w` (`bend[4]` goes from `(0,0,0,1)` to `(0,0,0,0)`), and the mapping that
follows moves the joint `root.child[4].child[0].child[0]` from angle `0` to `2 * (π / 8)`. -/
theorem readAndMap_short_line_overwrites :
    (readAndMap ⟨Real.sqrt, Real.sin, Real.cos, Real.arccos⟩
        (initialState fun _ => MatrixIdentity) (some identityLine)).bend 4 = ⟨0, 0, 0, 1⟩ ∧
    (readAndMap ⟨Real.sqrt, Real.sin, Real.cos, Real.arccos⟩
        (readAndMap ⟨Real.sqrt, Real.sin, Real.cos, Real.arccos⟩
          (initialState fun _ => MatrixIdentity) (some identityLine))
        (some [0])).bend 4 = ⟨0, 0, 0, 0⟩ ∧
    (nodeAt [4, 0, 0]
        (readAndMap ⟨Real.sqrt, Real.sin, Real.cos, Real.arccos⟩
          (initialState fun _ => MatrixIdentity) (some identityLine)).root).map Joint.angle
      = some 0 ∧
    (nodeAt [4, 0, 0]
        (readAndMap ⟨Real.sqrt, Real.sin, Real.cos, Real.arccos⟩
          (readAndMap ⟨Real.sqrt, Real.sin, Real.cos, Real.arccos⟩
            (initialState fun _ => MatrixIdentity) (some identityLine))
          (some [0])).root).map Joint.angle
      = some (2 * (Real.pi / 8)) ∧
    (2 * (Real.pi / 8) ≠ 0) := by
  obtain ⟨hb, ha, _, hf⟩ := readAndMap_finger ⟨Real.sqrt, Real.sin, Real.cos, Real.arccos⟩
    (initialState fun _ => MatrixIdentity) identityLine 4 (handSkeleton_shape _ 4)
  have hq : (readAndMap ⟨Real.sqrt, Real.sin, Real.cos, Real.arccos⟩
      (initialState fun _ => MatrixIdentity) (some identityLine)).bend 4 = ⟨0, 0, 0, 1⟩ := by
    rw [hb]; rfl
  have hshape : (nodeAt [(4 : Fin 5).val, 0, 0, 0, 0]
      (readAndMap ⟨Real.sqrt, Real.sin, Real.cos, Real.arccos⟩
        (initialState fun _ => MatrixIdentity) (some identityLine)).root).isSome = true := by
    have h5 := hf.2.2.2.2
    cases hn : nodeAt [(4 : Fin 5).val, 0, 0, 0, 0]
      (readAndMap ⟨Real.sqrt, Real.sin, Real.cos, Real.arccos⟩
        (initialState fun _ => MatrixIdentity) (some identityLine)).root with
    | none => rw [hn] at h5; simp at h5
    | some n => rfl
  obtain ⟨hb', ha', _, hf'⟩ := readAndMap_finger ⟨Real.sqrt, Real.sin, Real.cos, Real.arccos⟩
    (readAndMap ⟨Real.sqrt, Real.sin, Real.cos, Real.arccos⟩
      (initialState fun _ => MatrixIdentity) (some identityLine)) [0] 4 hshape
  have hq' : (readAndMap ⟨Real.sqrt, Real.sin, Real.cos, Real.arccos⟩
      (readAndMap ⟨Real.sqrt, Real.sin, Real.cos, Real.arccos⟩
        (initialState fun _ => MatrixIdentity) (some identityLine))
      (some [0])).bend 4 = ⟨0, 0, 0, 0⟩ := by
    rw [hb']
    have : (sscanfLine (readAndMap ⟨Real.sqrt, Real.sin, Real.cos, Real.arccos⟩
        (initialState fun _ => MatrixIdentity) (some identityLine)) [0]).1.bend 4
        = storeComponent ((readAndMap ⟨Real.sqrt, Real.sin, Real.cos, Real.arccos⟩
            (initialState fun _ => MatrixIdentity) (some identityLine)).bend 4) 0 0 := rfl
    rw [this, hq]; rfl
  refine ⟨hq, hq', ?_, ?_, ?_⟩
  · have h := hf.2.2.1
    rw [ha, hq, QuaternionToAxisAngle_real_w_one] at h
    simpa using h
  · have h := hf'.2.2.1
    rw [ha', hq', QuaternionToAxisAngle_real_w_zero] at h
    exact h
  · have hpi := Real.pi_pos
    intro h
    linarith

end SdpVisualizer
